import Mathlib

/-!
Verification of the geomeat data-processing pipeline
(src/src/geomeat/data/__init__.py together with src/src/geomeat/const.py).

The module is a coordination layer: it fetches sequencing runs, filters each
one with an external tool (mothur), merges the filtered outputs, installs a
reference database and runs a final preprocessing script.  The embedding
models the filesystem as the set of existing file paths, external processes
as an oracle assigning each invoked command an exit status and the files it
creates, and logging as an event trace.  Library pieces that are not part of
the repository sources (the bpyutils shell runner, auto_typecast, get_files,
the template renderer) and repository code outside src/ (install_silva,
the mothur templates) are modelled from the specification, as marked on the
corresponding definitions.
-/

/-- A Python value as produced by loading one CSV cell. -/
inductive PyVal
  | str (s : String)
  | int (n : Int)
  | bool (b : Bool)
  | pynone
deriving DecidableEq

/-- Numeric value of a list of decimal digit characters. -/
def digitsVal (ds : List Char) : Nat :=
  ds.foldl (fun acc c => acc * 10 + (c.toNat - '0'.toNat)) 0

/-- Integer parse of a text cell: an optional minus sign followed by digits.
Mirrors the success cases of Python int() on dataset cells. -/
def strToIntQ (s : String) : Option Int :=
  match s.data with
  | [] => none
  | '-' :: ds =>
    if !ds.isEmpty && ds.all Char.isDigit then some (-(digitsVal ds : Int)) else none
  | ds => if ds.all Char.isDigit then some ((digitsVal ds : Int)) else none

/-- Modelled from the spec: bpyutils auto_typecast is not under src/.  Spec §6
says dataset "values are type-coerced from text (numbers, booleans) on load";
numeric text becomes an integer, boolean text a boolean, anything else stays
a string. -/
def auto_typecast (s : String) : PyVal :=
  match strToIntQ s with
  | some n => PyVal.int n
  | none =>
    if s == "True" || s == "true" then PyVal.bool true
    else if s == "False" || s == "false" then PyVal.bool false
    else PyVal.str s

/-- Python equality on loaded values: distinct types compare unequal, except
that Python booleans are the integers 0 and 1. -/
def pyEq : PyVal → PyVal → Bool
  | PyVal.str a, PyVal.str b => a == b
  | PyVal.int a, PyVal.int b => a == b
  | PyVal.bool a, PyVal.bool b => a == b
  | PyVal.bool a, PyVal.int b => (if a then (1 : Int) else 0) == b
  | PyVal.int a, PyVal.bool b => a == (if b then (1 : Int) else 0)
  | PyVal.pynone, PyVal.pynone => true
  | _, _ => false

/-- Rendering of a loaded value by Python %s string formatting. -/
def pvStr : PyVal → String
  | PyVal.str s => s
  | PyVal.int n => toString n
  | PyVal.bool b => if b then "True" else "False"
  | PyVal.pynone => "None"

/-- Characters after the final slash: posixpath.basename on the characters of
a path. -/
def basenameL (p : List Char) : List Char :=
  (p.reverse.takeWhile (fun c => c != '/')).reverse

/-- Characters up to and including the final slash: the directory part that
posixpath.splitext leaves untouched. -/
def dirnameL (p : List Char) : List Char :=
  (p.reverse.dropWhile (fun c => c != '/')).reverse

/-- Root part of posixpath.splitext on a single path component: the extension
starts at the final dot, except that dots leading the component never begin an
extension (CPython requires a non-dot character before the final dot). -/
def splitextBaseL (b : List Char) : List Char :=
  let lead := b.takeWhile (fun c => c == '.')
  let core := b.dropWhile (fun c => c == '.')
  if core.contains '.' then
    lead ++ ((core.reverse.dropWhile (fun c => c != '.')).tail).reverse
  else b

/-- osp.splitext(p)[0]: CPython returns everything before the extension dot,
which lies inside the final component; the directory part passes through, so
the root is the directory part plus the component root. -/
def splitextFstL (p : List Char) : List Char :=
  dirnameL p ++ splitextBaseL (basenameL p)

/-- String form of posixpath.basename. -/
def basenameStr (s : String) : String := String.mk (basenameL s.data)

/-- The claim wording "the file's basename without its extension": basename
first, then the extension stripped. -/
def noExtBasename (s : String) : String := String.mk (splitextBaseL (basenameL s.data))

/-- Embedding of _get_fastq_file_line (data module lines 110-114): splitext,
then basename, rendered "%s %s" with the untouched file path. -/
def _get_fastq_file_line (fname : String) : String :=
  String.mk (basenameL (splitextFstL fname.data)) ++ " " ++ fname

lemma mem_takeWhile_pred {α : Type} {p : α → Bool} :
    ∀ {l : List α} {a : α}, a ∈ l.takeWhile p → p a = true := by
  intro l
  induction l with
  | nil => intro a h; simp [List.takeWhile] at h
  | cons x xs ih =>
      intro a h
      rw [List.takeWhile_cons] at h
      by_cases hx : p x = true
      · rw [if_pos hx] at h
        rcases List.mem_cons.mp h with h | h
        · exact h ▸ hx
        · exact ih h
      · rw [if_neg hx] at h; exact absurd h (List.not_mem_nil a)

lemma mem_takeWhile_mem {α : Type} {p : α → Bool} :
    ∀ {l : List α} {a : α}, a ∈ l.takeWhile p → a ∈ l := by
  intro l
  induction l with
  | nil => intro a h; simp [List.takeWhile] at h
  | cons x xs ih =>
      intro a h
      rw [List.takeWhile_cons] at h
      by_cases hx : p x = true
      · rw [if_pos hx] at h
        rcases List.mem_cons.mp h with h | h
        · exact h ▸ List.mem_cons_self x xs
        · exact List.mem_cons_of_mem x (ih h)
      · rw [if_neg hx] at h; exact absurd h (List.not_mem_nil a)

lemma mem_dropWhile_mem {α : Type} {p : α → Bool} :
    ∀ {l : List α} {a : α}, a ∈ l.dropWhile p → a ∈ l := by
  intro l
  induction l with
  | nil => intro a h; simp [List.dropWhile] at h
  | cons x xs ih =>
      intro a h
      rw [List.dropWhile_cons] at h
      by_cases hx : p x = true
      · rw [if_pos hx] at h; exact List.mem_cons_of_mem x (ih h)
      · rw [if_neg hx] at h; exact h

lemma takeWhile_append_all {α : Type} (p : α → Bool) (l₁ l₂ : List α)
    (h : ∀ a ∈ l₁, p a = true) :
    (l₁ ++ l₂).takeWhile p = l₁ ++ l₂.takeWhile p := by
  induction l₁ with
  | nil => simp
  | cons x xs ih =>
      rw [List.cons_append, List.takeWhile_cons, if_pos (h x (List.mem_cons_self x xs)),
        ih (fun a ha => h a (List.mem_cons_of_mem x ha)), List.cons_append]

lemma takeWhile_all {α : Type} (p : α → Bool) (l : List α)
    (h : ∀ a ∈ l, p a = true) : l.takeWhile p = l := by
  induction l with
  | nil => rfl
  | cons x xs ih =>
      rw [List.takeWhile_cons, if_pos (h x (List.mem_cons_self x xs)),
        ih (fun a ha => h a (List.mem_cons_of_mem x ha))]

lemma dropWhile_head_false {α : Type} {p : α → Bool} :
    ∀ {l : List α} {c : α} {cs : List α}, l.dropWhile p = c :: cs → p c = false := by
  intro l
  induction l with
  | nil => intro c cs h; simp [List.dropWhile] at h
  | cons x xs ih =>
      intro c cs h
      rw [List.dropWhile_cons] at h
      by_cases hx : p x = true
      · rw [if_pos hx] at h; exact ih h
      · rw [if_neg hx] at h
        cases h
        exact Bool.eq_false_iff.mpr hx

lemma basenameL_all_q (p : List Char) :
    ∀ c ∈ basenameL p, (c != '/') = true := by
  intro c hc
  rw [basenameL, List.mem_reverse] at hc
  exact mem_takeWhile_pred (p := fun c => c != '/') hc

lemma splitextBaseL_subset {b : List Char} {c : Char}
    (hc : c ∈ splitextBaseL b) : c ∈ b := by
  simp only [splitextBaseL] at hc
  by_cases h : (b.dropWhile (fun c => c == '.')).contains '.'
  · rw [if_pos h] at hc
    rcases List.mem_append.mp hc with h1 | h1
    · exact mem_takeWhile_mem h1
    · rw [List.mem_reverse] at h1
      have h2 := List.mem_of_mem_tail h1
      have h3 := mem_dropWhile_mem h2
      rw [List.mem_reverse] at h3
      exact mem_dropWhile_mem h3
  · rw [if_neg h] at hc; exact hc

lemma basenameL_append_no_slash (y x : List Char)
    (hx : ∀ c ∈ x, (c != '/') = true) :
    basenameL (y ++ '/' :: x) = x := by
  rw [basenameL, List.reverse_append, List.reverse_cons, List.append_assoc,
    List.singleton_append]
  rw [takeWhile_append_all _ _ _ (fun a ha => hx a (List.mem_reverse.mp ha))]
  have h1 : List.takeWhile (fun c => c != '/') ('/' :: y.reverse) = [] := by
    rw [List.takeWhile_cons, if_neg (by simp)]
  rw [h1, List.append_nil, List.reverse_reverse]

lemma basenameL_all_no_slash (p : List Char)
    (hp : ∀ c ∈ p, (c != '/') = true) :
    basenameL p = p := by
  rw [basenameL, takeWhile_all _ _ (fun a ha => hp a (List.mem_reverse.mp ha)),
    List.reverse_reverse]

lemma dirnameL_cases (p : List Char) :
    dirnameL p = [] ∨ ∃ y, dirnameL p = y ++ ['/'] := by
  rw [dirnameL]
  cases h : p.reverse.dropWhile (fun c => c != '/') with
  | nil => left; simp [h]
  | cons c cs =>
      right
      have hc : (c != '/') = false := dropWhile_head_false (p := fun c => c != '/') h
      have hc2 : c = '/' := by simpa using hc
      subst hc2
      exact ⟨cs.reverse, by rw [List.reverse_cons]⟩

lemma basename_splitextFst (p : List Char) :
    basenameL (splitextFstL p) = splitextBaseL (basenameL p) := by
  have hx : ∀ c ∈ splitextBaseL (basenameL p), (c != '/') = true :=
    fun c hc => basenameL_all_q p c (splitextBaseL_subset hc)
  rw [splitextFstL]
  rcases dirnameL_cases p with h | ⟨y, h⟩
  · rw [h, List.nil_append]; exact basenameL_all_no_slash _ hx
  · rw [h, List.append_assoc, List.singleton_append]
    exact basenameL_append_no_slash y _ hx

lemma fastq_line_eq (f : String) :
    _get_fastq_file_line f = noExtBasename f ++ " " ++ f := by
  rw [_get_fastq_file_line, noExtBasename, basename_splitextFst]

/-- The filesystem: the set of existing file paths. -/
structure World where
  fs : List String
deriving DecidableEq

/-- One observable action of the pipeline: an external process invocation, a
workspace creation, a file written with its content, or a log line. -/
inductive Event
  | proc (cmd : String)
  | mkTemp (dir : String)
  | fileWrite (path : String) (content : String)
  | warn (msg : String)
  | error (msg : String)
deriving DecidableEq

/-- Behaviour of one external process invocation: its exit status, the file
names it creates inside its working directory, and the absolute paths it
creates elsewhere. -/
structure ProcResult where
  exit : Int
  tmpCreates : List String
  fsCreates : List String

/-- Modelled from the spec: the External Process Runner (bpyutils
ShellEnvironment and popen, not under src/).  Spec §4.2: "run(command,
workingDirectory) → integer status.  A zero status is success; any non-zero
status is failure and must not raise".  An oracle assigns each command its
behaviour. -/
def Oracle : Type := String → ProcResult

/-- Bool test that the string s begins with the string q. -/
def strHasPre (q s : String) : Bool := q.data.isPrefixOf s.data

/-- Bool test that the string s ends with the string q. -/
def strHasSuf (q s : String) : Bool := q.data.isSuffixOf s.data

/-- Modelled from the spec: bpyutils get_files is not under src/.  The spec
uses it to "collect all per-sample filtered sequence+grouping files across
the whole batch" (§4.6) and to test "the expected raw-sequence files" of one
sample: a recursive search returning the existing paths below dir whose
final component matches the glob; the patterns used are a literal file name
or a "*.ext" suffix pattern. -/
def matchGlob (pat : String) (name : String) : Bool :=
  match pat.data with
  | '*' :: '.' :: rest => strHasSuf (String.mk ('.' :: rest)) name
  | _ => pat == name

def get_files (w : World) (dir : String) (pat : String) : List String :=
  w.fs.filter (fun p => strHasPre (dir ++ "/") p && matchGlob pat (basenameStr p))

/-- Cache root for ephemeral workspaces (geomeat config PATH CACHE). -/
def CACHE : String := "/cache"

/-- DEFAULT quality_average of src/src/geomeat/const.py. -/
def quality_average : Nat := 35

/-- DEFAULT maximum_ambiguity of src/src/geomeat/const.py. -/
def maximum_ambiguity : Nat := 0

/-- DEFAULT maximum_homopolymers of src/src/geomeat/const.py. -/
def maximum_homopolymers : Nat := 8

/-- Modelled from the spec: render_template lives in geomeat/data/util,
which is not under src/.  Spec §4.3: "render(templateName, configMapping) →
text.  Deterministic pure substitution; no side effects."  Rendering is
modelled as an injective pairing of the template name with the configuration
mapping. -/
def render_template (template : String) (config : List (String × String)) : String :=
  String.intercalate ";" (template :: config.map (fun kv => kv.1 ++ "=" ++ kv.2))

/-- One raw row of the dataset file: the textual cells of the columns the
pipeline reads (spec §6). -/
structure CsvRow where
  sra : String
  layout : String
  primer_f : String
  primer_r : String
  trimmed : String
  min_length : String
  max_length : String
deriving DecidableEq

/-- One loaded SampleRecord. -/
structure Row where
  sra : PyVal
  layout : PyVal
  primer_f : PyVal
  primer_r : PyVal
  trimmed : PyVal
  min_length : PyVal
  max_length : PyVal
deriving DecidableEq

/-- Loading of one dataset row: get_csv_data maps auto_typecast over the
cells of the row (data module line 38). -/
def loadRow (r : CsvRow) : Row :=
  { sra := auto_typecast r.sra
    layout := auto_typecast r.layout
    primer_f := auto_typecast r.primer_f
    primer_r := auto_typecast r.primer_r
    trimmed := auto_typecast r.trimmed
    min_length := auto_typecast r.min_length
    max_length := auto_typecast r.max_length }

def sraOf (meta : Row) : String := pvStr meta.sra

def sraDirOf (dataDir : String) (meta : Row) : String := dataDir ++ "/" ++ sraOf meta

def pathSraOf (dataDir : String) (meta : Row) : String :=
  sraDirOf dataDir meta ++ "/" ++ sraOf meta ++ ".sra"

/-- The fasterq-dump invocation of get_fastq lines 81-83. -/
def fasterqCmd (sra : String) (layout : PyVal) (jobs : Nat) : String :=
  let args := if pyEq layout (PyVal.str "paired") then "--split-files" else ""
  "fasterq-dump --threads " ++ toString jobs ++ " " ++ args ++ " " ++ sra

/-- FASTQ download phase of get_fastq (lines 76-90): skipped with a warning
when fastq files already exist in the sample directory. -/
def fastqPhase (sra : String) (layout : PyVal) (sraDir : String) (jobs : Nat)
    (o : Oracle) (w : World) : World × List Event :=
  let fastqFiles := get_files w sraDir "*.fastq"
  if fastqFiles.isEmpty then
    let cmd := fasterqCmd sra layout jobs
    let r := o cmd
    let w2 : World := ⟨w.fs ++ r.fsCreates⟩
    if r.exit == 0 then (w2, [Event.proc cmd])
    else (w2, [Event.proc cmd,
      Event.error ("Unable to download FASTQ file(s) for SRA " ++ sra ++ ".")])
  else (w, [Event.warn ("FASTQ file(s) for SRA " ++ sra ++ " already exist.")])

/-- Embedding of get_fastq (lines 42-90): prefetch the .sra archive when it
is absent, validate only directly after a fresh successful prefetch, then
extract fastq files when they are absent.  The shell returns a status (spec
§4.2), so the failure branches log an error and return. -/
def get_fastq (meta : Row) (dataDir : String) (jobs : Nat) (o : Oracle)
    (w : World) : World × List Event :=
  let sra := sraOf meta
  let sraDir := sraDirOf dataDir meta
  let pathSra := pathSraOf dataDir meta
  if w.fs.contains pathSra then
    let r2 := fastqPhase sra meta.layout sraDir jobs o w
    (r2.1, Event.warn ("SRA " ++ sra ++ " already prefeteched.") :: r2.2)
  else
    let cmdP := "prefetch -O " ++ sraDir ++ " " ++ sra
    let rP := o cmdP
    let w1 : World := ⟨w.fs ++ rP.fsCreates⟩
    if rP.exit == 0 then
      let cmdV := "vdb-validate " ++ sraDir
      let rV := o cmdV
      let w2 : World := ⟨w1.fs ++ rV.fsCreates⟩
      if rV.exit == 0 then
        let r3 := fastqPhase sra meta.layout sraDir jobs o w2
        (r3.1, Event.proc cmdP :: Event.proc cmdV :: r3.2)
      else (w2, [Event.proc cmdP, Event.proc cmdV,
        Event.error ("Unable to validate SRA " ++ sra ++ ".")])
    else (w1, [Event.proc cmdP,
      Event.error ("Unable to prefetech SRA " ++ sra ++ ".")])

/-- Modelled from the spec: parallel.no_daemon_pool imap (bpyutils, not
under src/).  Spec §4.5: a bounded pool maps the per-item function over all
items; items are independent, "completion order is unspecified", and the
embedding runs them in submission order. -/
def runSeq {α : Type} (step : α → World → World × List Event) :
    List α → World → World × List Event
  | [], w => (w, [])
  | it :: its, w =>
    let r := step it w
    let rs := runSeq step its r.1
    (rs.1, r.2 ++ rs.2)

/-- Per-item trace segments of runSeq. -/
def runSegs {α : Type} (step : α → World → World × List Event) :
    List α → World → List (List Event)
  | [], _ => []
  | it :: its, w => (step it w).2 :: runSegs step its (step it w).1

/-- Embedding of get_data (lines 92-108): load the dataset rows and map
get_fastq over them through the pool. -/
def get_data (rows : List CsvRow) (dataDir : String) (jobs : Nat) (o : Oracle)
    (w : World) : World × List Event :=
  runSeq (fun r => get_fastq (loadRow r) dataDir jobs o) rows w

/-- One entry of mothur_configs as filter_fastq builds it (lines 286-299). -/
structure MothurConfig where
  files : List String
  target_dir : String
  sra_id : String
  primer_f : PyVal
  primer_r : PyVal
  layout : PyVal
  trim_type : PyVal
  min_length : PyVal
  max_length : PyVal
deriving DecidableEq

/-- The three declared target paths of the Filter stage (lines 139-143). -/
def filterTargets (targetDir : String) : List String :=
  ["fasta", "group", "summary"].map (fun x => targetDir ++ "/filtered." ++ x)

/-- Modelled from the spec: make_temp_dir (bpyutils, not under src/) yields a
fresh unique workspace under the cache root per work item (spec §4.1, §5);
modelled deterministically from the sample identifier. -/
def filterTmp (cfg : MothurConfig) : String := CACHE ++ "/mothur_" ++ cfg.sra_id

/-- Modelled from the spec: get_random_str (bpyutils, not under src/) yields
a fresh random name; modelled deterministically from the sample
identifier. -/
def filterPfx (cfg : MothurConfig) : String := "rnd" ++ cfg.sra_id

/-- Modelled from the spec: a copy whose source name is absent from the
workspace produces no declared output; spec §7(b) treats a zero exit with a
missing declared output as "the stage is simply retried from scratch next
invocation", so the copy is modelled as a no-op on a missing source. -/
def copyFromTmp (tmp : List String) (srcName dest : String)
    (fs : List String) : List String :=
  if tmp.contains srcName then fs ++ [dest] else fs

/-- Fixed-suffix output names of the filtering tool by layout
(lines 193-201). -/
def filterChoice (paired : Bool) : String × String × String :=
  if paired then
    (".trim.contigs.trim.good.fasta", ".contigs.good.groups",
      ".trim.contigs.trim.good.summary")
  else (".trim.good.fasta", ".good.group", ".trim.good.summary")

/-- Embedding of _mothur_filter_files (lines 122-225).  The idempotence gate
checks the three declared targets; on an incomplete set the stage acquires a
workspace, copies the raw files in, writes the layout-specific control
files, renders the filter script (whose configuration carries only the
input directory, the random name, the processor count and the three quality
settings, lines 172-180), runs mothur and, after a zero status, copies the
fixed-name outputs onto the target paths.  The workspace is removed on every
path.  With the status-returning runner of spec §4.2 the PopenError handler
of lines 222-223 can never fire, so a non-zero status ends the stage with
nothing logged. -/
def _mothur_filter_files (o : Oracle) (jobs : Nat) (cfg : MothurConfig)
    (w : World) : World × List Event :=
  let targets := filterTargets cfg.target_dir
  if targets.all (fun t => w.fs.contains t) then
    (w, [Event.warn ("[SRA " ++ cfg.sra_id ++ "] Filtered files already exists.")])
  else
    let tmpDir := filterTmp cfg
    let pfx := filterPfx cfg
    let tmp0 := cfg.files.map (fun f => basenameStr f)
    let singleQ := pyEq cfg.layout (PyVal.str "single")
    let fastqFile := tmpDir ++ "/" ++ pfx ++ ".file"
    let fastqData := String.intercalate "\n" (cfg.files.map _get_fastq_file_line)
    let tmp1 := if singleQ then tmp0 ++ [pfx ++ ".file"] else tmp0
    let es1 := if singleQ then [Event.fileWrite fastqFile fastqData] else []
    let pairedUntrimmed := pyEq cfg.layout (PyVal.str "paired") &&
      pyEq cfg.trim_type (PyVal.str "false")
    let oligosFile := tmpDir ++ "/primers.oligos"
    let oligosData := "primer " ++ pvStr cfg.primer_f ++ " " ++ pvStr cfg.primer_r
    let tmp2 := if pairedUntrimmed then tmp1 ++ ["primers.oligos"] else tmp1
    let es2 := if pairedUntrimmed then [Event.fileWrite oligosFile oligosData] else []
    let mothurFile := tmpDir ++ "/script"
    let script := render_template "mothur/filter"
      [("inputdir", tmpDir), ("prefix", pfx), ("processors", toString jobs),
        ("qaverage", toString quality_average),
        ("maxambig", toString maximum_ambiguity),
        ("maxhomop", toString maximum_homopolymers)]
    let tmp3 := tmp2 ++ ["script"]
    let cmd := "mothur " ++ mothurFile
    let r := o cmd
    let fs1 := w.fs ++ r.fsCreates
    let tmp4 := tmp3 ++ r.tmpCreates
    let es := Event.mkTemp tmpDir :: es1 ++ es2 ++
      [Event.fileWrite mothurFile script, Event.proc cmd]
    if r.exit == 0 then
      let choice := filterChoice (pyEq cfg.layout (PyVal.str "paired"))
      let fs2 := copyFromTmp tmp4 (pfx ++ choice.1)
        (cfg.target_dir ++ "/filtered.fasta") fs1
      let fs3 := copyFromTmp tmp4 (pfx ++ choice.2.1)
        (cfg.target_dir ++ "/filtered.group") fs2
      let fs4 := copyFromTmp tmp4 (pfx ++ choice.2.2)
        (cfg.target_dir ++ "/filtered.summary") fs3
      (⟨fs4⟩, es)
    else (⟨fs1⟩, es)

/-- Structural worker for chunkify: the fuel argument only drives the
recursion and is at least the list length at the call site, so the fallback
arm that keeps the remainder whole is never reached there. -/
def chunkifyF {α : Type} : Nat → List α → Nat → List (List α)
  | _, [], _ => []
  | 0, x :: xs, _ => [x :: xs]
  | fuel + 1, x :: xs, n => (x :: xs.take (n - 1)) :: chunkifyF fuel (xs.drop (n - 1)) n

/-- Chunks of n items each (bpyutils chunkify as used with the
filter_chunks setting). -/
def chunkify {α : Type} (l : List α) (n : Nat) : List (List α) :=
  chunkifyF l.length l n

/-- The per-sample configs filter_fastq builds before dispatching
(lines 281-299): raw files and target directory resolved against the current
filesystem, sample fields taken from the loaded row. -/
def mothur_configs (rows : List CsvRow) (dataDir : String) (w : World) :
    List MothurConfig :=
  (rows.map loadRow).map (fun d =>
    let sraId := pvStr d.sra
    let sraDir := dataDir ++ "/" ++ sraId
    { files := get_files w sraDir "*.fastq"
      target_dir := sraDir
      sra_id := sraId
      primer_f := d.primer_f
      primer_r := d.primer_r
      layout := d.layout
      trim_type := d.trimmed
      min_length := d.min_length
      max_length := d.max_length })

/-- Embedding of filter_fastq (lines 270-312): build every sample's config
from the dataset and the current filesystem, then dispatch
_mothur_filter_files over the configs in chunks through the pool; an empty
config list short-circuits. -/
def filter_fastq (rows : List CsvRow) (dataDir : String) (jobs chunkSize : Nat)
    (o : Oracle) (w : World) : World × List Event :=
  let configs := mothur_configs rows dataDir w
  if configs.isEmpty then (w, [])
  else runSeq (runSeq (_mothur_filter_files o jobs)) (chunkify configs chunkSize) w

/-- Moves of bpyutils move(*files, dest): every found source is moved onto
the destination path; with no sources nothing happens. -/
def moveAll (srcs : List String) (dest : String) (fs : List String) : List String :=
  if srcs.isEmpty then fs
  else (fs.filter (fun p => !srcs.contains p)) ++ [dest]

def mergeTmp : String := CACHE ++ "/merge"

/-- Embedding of merge_fastq (lines 227-268): skip unless both the filtered
sequence list and the filtered group list are non-empty; otherwise render
the merge script, run mothur and, after a zero status, re-discover the files
named exactly merged.fasta and merged.group below the data directory (the
workaround of lines 257-262) and move them onto the requested output
paths. -/
def merge_fastq (o : Oracle) (dataDir : String) (w : World) : World × List Event :=
  let filtered := get_files w dataDir "filtered.fasta"
  let groups := get_files w dataDir "filtered.group"
  if !filtered.isEmpty && !groups.isEmpty then
    let outputFasta := dataDir ++ "/merged.fasta"
    let outputGroup := dataDir ++ "/merged.group"
    let mothurFile := mergeTmp ++ "/script"
    let script := render_template "mothur/preprocess"
      [("input_fastas", String.intercalate "," filtered),
        ("input_groups", String.intercalate "," groups),
        ("output_fasta", outputFasta), ("output_group", outputGroup)]
    let cmd := "mothur " ++ mothurFile
    let r := o cmd
    let fs1 := w.fs ++ r.fsCreates
    let es := [Event.mkTemp mergeTmp, Event.fileWrite mothurFile script,
      Event.proc cmd]
    if r.exit == 0 then
      let w1 : World := ⟨fs1⟩
      let mergedFasta := get_files w1 dataDir "merged.fasta"
      let mergedGroup := get_files w1 dataDir "merged.group"
      let fs2 := moveAll mergedFasta outputFasta fs1
      let fs3 := moveAll mergedGroup outputGroup fs2
      (⟨fs3⟩, es)
    else (⟨fs1⟩, es ++ [Event.error "Error merging files."])
  else (w, [Event.warn "No files found to merge."])

/-- Versioned local directory of the SILVA reference set (version 138 of
src/src/geomeat/const.py). -/
def silvaDir : String := "/data/silva_seed_138"

/-- Modelled from the spec: install_silva lives in geomeat/data/util, which
is not under src/.  Spec §4.6 Reference-Install: "ensure a versioned
external reference dataset is present locally (download + extract if
absent); idempotent by presence check of the extracted directory". -/
def install_silva (o : Oracle) (w : World) : World × List Event :=
  if w.fs.contains silvaDir then
    (w, [Event.warn "SILVA reference already installed."])
  else
    let r := o "install_silva"
    (⟨w.fs ++ r.fsCreates⟩, [Event.proc "install_silva"])

def preprocessTmp : String := CACHE ++ "/preprocess"

/-- Embedding of preprocess_fasta (lines 314-336): no presence check guards
this stage; it always renders the preprocessing script over the merged file
paths and runs mothur. -/
def preprocess_fasta (o : Oracle) (dataDir : String) (w : World) :
    World × List Event :=
  let mergedFasta := dataDir ++ "/merged.fasta"
  let mergedGroup := dataDir ++ "/merged.group"
  let mothurFile := preprocessTmp ++ "/script"
  let script := render_template "mothur/preprocess"
    [("merged_fasta", mergedFasta), ("merged_group", mergedGroup)]
  let cmd := "mothur " ++ mothurFile
  let r := o cmd
  let w1 : World := ⟨w.fs ++ r.fsCreates⟩
  if r.exit == 0 then
    (w1, [Event.mkTemp preprocessTmp, Event.fileWrite mothurFile script,
      Event.proc cmd])
  else
    (w1, [Event.mkTemp preprocessTmp, Event.fileWrite mothurFile script,
      Event.proc cmd, Event.error "Error merging files."])

/-- Embedding of preprocess_data (lines 338-351): filter, merge, reference
install, preprocess, strictly in sequence. -/
def preprocess_data (rows : List CsvRow) (dataDir : String)
    (jobs chunkSize : Nat) (o : Oracle) (w : World) : World × List Event :=
  let r1 := filter_fastq rows dataDir jobs chunkSize o w
  let r2 := merge_fastq o dataDir r1.1
  let r3 := install_silva o r2.1
  let r4 := preprocess_fasta o dataDir r3.1
  (r4.1, r1.2 ++ r2.2 ++ r3.2 ++ r4.2)

def isProc : Event → Bool
  | Event.proc _ => true
  | _ => false

def isMkTemp : Event → Bool
  | Event.mkTemp _ => true
  | _ => false

def isWarn : Event → Bool
  | Event.warn _ => true
  | _ => false

def isError : Event → Bool
  | Event.error _ => true
  | _ => false

lemma runSeq_append {α : Type} (step : α → World → World × List Event)
    (l₁ l₂ : List α) (w : World) :
    runSeq step (l₁ ++ l₂) w =
      ((runSeq step l₂ (runSeq step l₁ w).1).1,
        (runSeq step l₁ w).2 ++ (runSeq step l₂ (runSeq step l₁ w).1).2) := by
  induction l₁ generalizing w with
  | nil => simp [runSeq]
  | cons it its ih => simp [runSeq, ih, List.append_assoc]

lemma runSeq_join {α : Type} (step : α → World → World × List Event)
    (chunks : List (List α)) (w : World) :
    runSeq (runSeq step) chunks w = runSeq step chunks.join w := by
  induction chunks generalizing w with
  | nil => simp [runSeq]
  | cons c cs ih => simp [runSeq, List.join_cons, runSeq_append, ih]

lemma chunkifyF_join {α : Type} :
    ∀ (fuel : Nat) (l : List α) (n : Nat), (chunkifyF fuel l n).join = l := by
  intro fuel
  induction fuel with
  | zero =>
      intro l n
      cases l with
      | nil => rfl
      | cons x xs => simp [chunkifyF]
  | succ fuel ih =>
      intro l n
      cases l with
      | nil => rfl
      | cons x xs =>
          rw [chunkifyF]
          simp only [List.join_cons, ih, List.cons_append]
          rw [List.take_append_drop]

lemma chunkify_join {α : Type} (l : List α) (n : Nat) :
    (chunkify l n).join = l := chunkifyF_join l.length l n

lemma filter_fastq_runSeq (rows : List CsvRow) (dataDir : String)
    (jobs chunkSize : Nat) (o : Oracle) (w : World) :
    filter_fastq rows dataDir jobs chunkSize o w =
      runSeq (_mothur_filter_files o jobs) (mothur_configs rows dataDir w) w := by
  rw [filter_fastq]
  by_cases h : (mothur_configs rows dataDir w).isEmpty = true
  · rw [if_pos h, List.isEmpty_iff.mp h]; rfl
  · rw [if_neg h, runSeq_join, chunkify_join]

lemma runSegs_length {α : Type} (step : α → World → World × List Event)
    (its : List α) (w : World) :
    (runSegs step its w).length = its.length := by
  induction its generalizing w with
  | nil => rfl
  | cons it its ih => simp [runSegs, ih]

lemma runSeq_eq_segs {α : Type} (step : α → World → World × List Event)
    (its : List α) (w : World) :
    (runSeq step its w).2 = (runSegs step its w).join := by
  induction its generalizing w with
  | nil => simp [runSeq, runSegs]
  | cons it its ih => simp [runSeq, runSegs, List.join_cons, ih]

lemma runSegs_ne_nil {α : Type} (step : α → World → World × List Event)
    (hstep : ∀ it w, (step it w).2 ≠ [])
    (its : List α) (w : World) : ∀ seg ∈ runSegs step its w, seg ≠ [] := by
  induction its generalizing w with
  | nil => intro seg h; simp [runSegs] at h
  | cons it its ih =>
      intro seg h
      rw [runSegs] at h
      rcases List.mem_cons.mp h with h | h
      · exact h ▸ hstep it w
      · exact ih _ seg h

lemma get_fastq_events_ne_nil (meta : Row) (dataDir : String) (jobs : Nat)
    (o : Oracle) (w : World) : (get_fastq meta dataDir jobs o w).2 ≠ [] := by
  simp only [get_fastq]
  split
  · simp
  · split
    · split
      · simp
      · simp
    · simp

lemma mothur_filter_events_ne_nil (o : Oracle) (jobs : Nat)
    (cfg : MothurConfig) (w : World) :
    (_mothur_filter_files o jobs cfg w).2 ≠ [] := by
  simp only [_mothur_filter_files]
  split
  · simp
  · split
    · simp
    · simp

lemma bool_ne_true {b : Bool} (h : b = false) : ¬(b = true) := by
  rw [h]; simp

lemma str_append_left_cancel {a b c : String} (h : a ++ b = a ++ c) : b = c := by
  have hd : (a ++ b).data = (a ++ c).data := by rw [h]
  rw [String.data_append, String.data_append] at hd
  exact String.ext (List.append_cancel_left hd)

lemma data_head_append_left {a : String} {c : Char} {cs : List Char}
    (ha : a.data = c :: cs) (b : String) :
    ∃ ds, (a ++ b).data = c :: ds :=
  ⟨cs ++ b.data, by rw [String.data_append, ha]; rfl⟩

lemma str_ne_of_heads {s t : String} {c d : Char}
    (hs : ∃ cs, s.data = c :: cs) (ht : ∃ ds, t.data = d :: ds)
    (h : c ≠ d) : s ≠ t := by
  obtain ⟨cs, hs⟩ := hs
  obtain ⟨ds, ht⟩ := ht
  intro he
  rw [he, ht] at hs
  cases hs
  exact h rfl

lemma fasterq_head (sra : String) (layout : PyVal) (jobs : Nat) :
    ∃ ds, (fasterqCmd sra layout jobs).data = 'f' :: ds := by
  simp only [fasterqCmd]
  obtain ⟨d1, h1⟩ :=
    data_head_append_left (a := "fasterq-dump --threads ") (c := 'f') rfl (toString jobs)
  obtain ⟨d2, h2⟩ := data_head_append_left h1 " "
  obtain ⟨d3, h3⟩ := data_head_append_left h2
    (if pyEq layout (PyVal.str "paired") then "--split-files" else "")
  obtain ⟨d4, h4⟩ := data_head_append_left h3 " "
  exact data_head_append_left h4 sra

lemma prefetch_head (sraDir sra : String) :
    ∃ ds, ("prefetch -O " ++ sraDir ++ " " ++ sra).data = 'p' :: ds := by
  obtain ⟨d1, h1⟩ :=
    data_head_append_left (a := "prefetch -O ") (c := 'p') rfl sraDir
  obtain ⟨d2, h2⟩ := data_head_append_left h1 " "
  exact data_head_append_left h2 sra

lemma vdb_head (sraDir : String) :
    ∃ ds, ("vdb-validate " ++ sraDir).data = 'v' :: ds :=
  data_head_append_left (a := "vdb-validate ") (c := 'v') rfl sraDir

/-- Normal form of the skip branch of the Filter stage. -/
lemma mothur_filter_skip (o : Oracle) (jobs : Nat) (cfg : MothurConfig) (w : World)
    (hg : (filterTargets cfg.target_dir).all (fun t => w.fs.contains t) = true) :
    _mothur_filter_files o jobs cfg w =
      (w, [Event.warn ("[SRA " ++ cfg.sra_id ++ "] Filtered files already exists.")]) := by
  simp only [_mothur_filter_files]
  rw [if_pos hg]

/-- On an incomplete target set the Filter stage acquires a workspace and
runs the external tool. -/
lemma mothur_filter_run_mem (o : Oracle) (jobs : Nat) (cfg : MothurConfig) (w : World)
    (hg : (filterTargets cfg.target_dir).all (fun t => w.fs.contains t) = false) :
    Event.mkTemp (filterTmp cfg) ∈ (_mothur_filter_files o jobs cfg w).2 ∧
    Event.proc ("mothur " ++ (filterTmp cfg ++ "/script")) ∈
      (_mothur_filter_files o jobs cfg w).2 := by
  simp only [_mothur_filter_files]
  rw [if_neg (bool_ne_true hg)]
  constructor <;> (split <;> simp)

/-- C1: the idempotence gate of the Filter stage skips the sample (no
workspace created, no external process invoked, a warning logged) exactly
when all three declared target paths exist; on any incomplete subset the
full stage runs: a workspace is acquired and the external tool invoked. -/
theorem c1_filter_gate (o : Oracle) (jobs : Nat) (cfg : MothurConfig) (w : World) :
    (((filterTargets cfg.target_dir).all (fun t => w.fs.contains t) = true) ↔
      ((∀ d, Event.mkTemp d ∉ (_mothur_filter_files o jobs cfg w).2) ∧
        (∀ c, Event.proc c ∉ (_mothur_filter_files o jobs cfg w).2) ∧
        (∃ m, Event.warn m ∈ (_mothur_filter_files o jobs cfg w).2))) ∧
    (((filterTargets cfg.target_dir).all (fun t => w.fs.contains t) = false) →
      (Event.mkTemp (filterTmp cfg) ∈ (_mothur_filter_files o jobs cfg w).2 ∧
        Event.proc ("mothur " ++ (filterTmp cfg ++ "/script")) ∈
          (_mothur_filter_files o jobs cfg w).2)) := by
  by_cases hg : (filterTargets cfg.target_dir).all (fun t => w.fs.contains t) = true
  · constructor
    · constructor
      · intro _
        rw [mothur_filter_skip o jobs cfg w hg]
        refine ⟨by simp, by simp, ?_⟩
        exact ⟨"[SRA " ++ cfg.sra_id ++ "] Filtered files already exists.", by simp⟩
      · intro _; exact hg
    · intro hf; rw [hg] at hf; cases hf
  · have hg' := Bool.eq_false_iff.mpr hg
    constructor
    · constructor
      · intro h; exact absurd h hg
      · rintro ⟨hmk, -, -⟩
        exact absurd (mothur_filter_run_mem o jobs cfg w hg').1 (hmk (filterTmp cfg))
    · intro _; exact mothur_filter_run_mem o jobs cfg w hg'

def oZero : Oracle := fun _ => ⟨0, [], []⟩

def cfg8 : MothurConfig :=
  { files := ["/d/S1/a.fastq"], target_dir := "/d/S1", sra_id := "S1",
    primer_f := PyVal.str "AAA", primer_r := PyVal.str "TTT",
    layout := PyVal.str "single", trim_type := PyVal.bool true,
    min_length := PyVal.int 100, max_length := PyVal.int 200 }

theorem c1_filter_gate_witness :
    ((filterTargets cfg8.target_dir).all (fun t => (⟨[]⟩ : World).fs.contains t) = false) ∧
    Event.mkTemp (filterTmp cfg8) ∈ (_mothur_filter_files oZero 1 cfg8 ⟨[]⟩).2 := by
  refine ⟨by decide, ?_⟩
  exact ((c1_filter_gate oZero 1 cfg8 ⟨[]⟩).2 (by decide)).1

/-- C8: for a single-layout sample whose targets are incomplete, the Filter
stage writes the file-list control file into the workspace, whose content is
one line per raw fastq file joined by newlines, each line "prefix path" with
the prefix equal to the file's basename without its extension. -/
theorem c8_single_file_list (o : Oracle) (jobs : Nat) (cfg : MothurConfig) (w : World)
    (hl : pyEq cfg.layout (PyVal.str "single") = true)
    (hg : (filterTargets cfg.target_dir).all (fun t => w.fs.contains t) = false) :
    Event.fileWrite (filterTmp cfg ++ "/" ++ filterPfx cfg ++ ".file")
        (String.intercalate "\n" (cfg.files.map _get_fastq_file_line)) ∈
      (_mothur_filter_files o jobs cfg w).2 ∧
    ∀ f ∈ cfg.files, _get_fastq_file_line f = noExtBasename f ++ " " ++ f := by
  constructor
  · simp only [_mothur_filter_files]
    rw [if_neg (bool_ne_true hg)]
    split <;> simp [hl]
  · intro f _
    exact fastq_line_eq f

theorem c8_single_file_list_witness :
    pyEq cfg8.layout (PyVal.str "single") = true ∧
    (Event.fileWrite (filterTmp cfg8 ++ "/" ++ filterPfx cfg8 ++ ".file")
        (String.intercalate "\n" (cfg8.files.map _get_fastq_file_line)) ∈
      (_mothur_filter_files oZero 1 cfg8 ⟨[]⟩).2 ∧
      ∀ f ∈ cfg8.files, _get_fastq_file_line f = noExtBasename f ++ " " ++ f) :=
  ⟨by decide, c8_single_file_list oZero 1 cfg8 ⟨[]⟩ (by decide) (by decide)⟩

/-- C6: a sample whose prefetched archive and dumped fastq files already
exist triggers none of the prefetch, vdb-validate or fasterq-dump processes:
get_fastq logs two warnings and leaves the filesystem unchanged. -/
theorem c6_fetch_skip (meta : Row) (dataDir : String) (jobs : Nat) (o : Oracle)
    (w : World)
    (hsra : w.fs.contains (pathSraOf dataDir meta) = true)
    (hfq : (get_files w (sraDirOf dataDir meta) "*.fastq").isEmpty = false) :
    get_fastq meta dataDir jobs o w =
      (w, [Event.warn ("SRA " ++ sraOf meta ++ " already prefeteched."),
        Event.warn ("FASTQ file(s) for SRA " ++ sraOf meta ++ " already exist.")]) := by
  have hm : pathSraOf dataDir meta ∈ w.fs := by simpa using hsra
  have hq : ¬(get_files w (sraDirOf dataDir meta) "*.fastq" = []) := by
    simpa using hfq
  simp [get_fastq, fastqPhase, hsra, hfq, hm, hq]

def rowS1 : CsvRow :=
  { sra := "S1", layout := "single", primer_f := "AAA", primer_r := "TTT",
    trimmed := "true", min_length := "100", max_length := "200" }

def metaS1 : Row := loadRow rowS1

def w6 : World := ⟨["/d/S1/S1.sra", "/d/S1/a.fastq"]⟩

theorem c6_fetch_skip_witness :
    w6.fs.contains (pathSraOf "/d" metaS1) = true ∧
    get_fastq metaS1 "/d" 1 oZero w6 =
      (w6, [Event.warn ("SRA " ++ sraOf metaS1 ++ " already prefeteched."),
        Event.warn ("FASTQ file(s) for SRA " ++ sraOf metaS1 ++ " already exist.")]) :=
  ⟨by decide, c6_fetch_skip metaS1 "/d" 1 oZero w6 (by decide) (by decide)⟩

lemma fastqPhase_no_vdb (sra : String) (layout : PyVal) (sraDir : String)
    (jobs : Nat) (o : Oracle) (w : World) (s : String) :
    Event.proc ("vdb-validate " ++ s) ∉ (fastqPhase sra layout sraDir jobs o w).2 := by
  have hne : "vdb-validate " ++ s ≠ fasterqCmd sra layout jobs :=
    str_ne_of_heads (vdb_head s) (fasterq_head sra layout jobs) (by decide)
  simp only [fastqPhase]
  split
  · split <;> simp [hne]
  · simp

/-- C9: with a cached archive and absent fastq files, get_fastq goes
straight to fasterq-dump with no validation; and a vdb-validate invocation
only ever happens in a call where the archive was absent and the prefetch it
just ran exited zero. -/
theorem c9_validate_only_after_prefetch (meta : Row) (dataDir : String)
    (jobs : Nat) (o : Oracle) (w : World) :
    ((w.fs.contains (pathSraOf dataDir meta) = true →
      (get_files w (sraDirOf dataDir meta) "*.fastq").isEmpty = true →
      (get_fastq meta dataDir jobs o w).2 =
        Event.warn ("SRA " ++ sraOf meta ++ " already prefeteched.") ::
          Event.proc (fasterqCmd (sraOf meta) meta.layout jobs) ::
          (if (o (fasterqCmd (sraOf meta) meta.layout jobs)).exit == 0 then []
           else [Event.error
              ("Unable to download FASTQ file(s) for SRA " ++ sraOf meta ++ ".")]))) ∧
    (∀ w' : World,
      Event.proc ("vdb-validate " ++ sraDirOf dataDir meta) ∈
          (get_fastq meta dataDir jobs o w').2 →
      w'.fs.contains (pathSraOf dataDir meta) = false ∧
        (o ("prefetch -O " ++ sraDirOf dataDir meta ++ " " ++ sraOf meta)).exit = 0) := by
  constructor
  · intro hsra hfq
    have hm : pathSraOf dataDir meta ∈ w.fs := by simpa using hsra
    have hq : get_files w (sraDirOf dataDir meta) "*.fastq" = [] := by
      simpa using hfq
    simp only [get_fastq, fastqPhase, hm, hq]
    simp [hm, hq]
    split <;> simp
  · intro w' hv
    by_cases hc : w'.fs.contains (pathSraOf dataDir meta) = true
    · exfalso
      simp only [get_fastq] at hv
      rw [if_pos hc] at hv
      rcases List.mem_cons.mp hv with h | h
      · simp at h
      · exact fastqPhase_no_vdb _ _ _ _ _ _ _ h
    · refine ⟨Bool.eq_false_iff.mpr hc, ?_⟩
      simp only [get_fastq] at hv
      rw [if_neg hc] at hv
      by_cases hp : ((o ("prefetch -O " ++ sraDirOf dataDir meta ++ " " ++ sraOf meta)).exit == 0) = true
      · simpa using hp
      · exfalso
        rw [if_neg hp] at hv
        have hne : "vdb-validate " ++ sraDirOf dataDir meta ≠
            "prefetch -O " ++ sraDirOf dataDir meta ++ " " ++ sraOf meta :=
          str_ne_of_heads (vdb_head _)
            (prefetch_head (sraDirOf dataDir meta) (sraOf meta)) (by decide)
        simp [hne] at hv

def w9 : World := ⟨["/d/S1/S1.sra"]⟩

theorem c9_validate_only_after_prefetch_witness :
    (get_fastq metaS1 "/d" 1 oZero w9).2 =
      Event.warn ("SRA " ++ sraOf metaS1 ++ " already prefeteched.") ::
        Event.proc (fasterqCmd (sraOf metaS1) metaS1.layout 1) ::
        (if (oZero (fasterqCmd (sraOf metaS1) metaS1.layout 1)).exit == 0 then []
         else [Event.error
            ("Unable to download FASTQ file(s) for SRA " ++ sraOf metaS1 ++ ".")]) :=
  (c9_validate_only_after_prefetch metaS1 "/d" 1 oZero w9).1 (by decide) (by decide)

def oFail : Oracle := fun _ => ⟨1, [], []⟩

def cfg4 : MothurConfig :=
  { files := ["/d/S4/a_1.fastq", "/d/S4/a_2.fastq"], target_dir := "/d/S4",
    sra_id := "S4", primer_f := PyVal.str "AAA", primer_r := PyVal.str "TTT",
    layout := PyVal.str "paired", trim_type := PyVal.bool false,
    min_length := PyVal.int 100, max_length := PyVal.int 200 }

def w4 : World := ⟨["/d/S4/a_1.fastq", "/d/S4/a_2.fastq"]⟩

/-- C4, evaluated at the failing input: the filtering process exits 1 for
sample S4; the stage runs (the gate was open, mothur was invoked), no file
reaches the target directory and the filesystem is unchanged, but no failure
is logged at all: the only failure log of this stage lives in the PopenError
handler, which a status-returning runner (spec §4.2) never reaches. -/
theorem c4_nonzero_exit_eval :
    (_mothur_filter_files oFail 1 cfg4 w4).2.any isProc = true ∧
    (_mothur_filter_files oFail 1 cfg4 w4).1 = w4 ∧
    (_mothur_filter_files oFail 1 cfg4 w4).1.fs.contains "/d/S4/filtered.fasta" = false ∧
    (_mothur_filter_files oFail 1 cfg4 w4).1.fs.contains "/d/S4/filtered.group" = false ∧
    (_mothur_filter_files oFail 1 cfg4 w4).1.fs.contains "/d/S4/filtered.summary" = false ∧
    (_mothur_filter_files oFail 1 cfg4 w4).2.all (fun e => !isError e) = true ∧
    (_mothur_filter_files oFail 1 cfg4 w4).2.all (fun e => !isWarn e) = true := by
  decide

def isOligosWrite : Event → Bool
  | Event.fileWrite p _ => strHasSuf "primers.oligos" p
  | _ => false

def row7 : CsvRow :=
  { sra := "S7", layout := "paired", primer_f := "ACGT", primer_r := "TGCA",
    trimmed := "false", min_length := "100", max_length := "200" }

def w7 : World := ⟨["/d/S7/a_1.fastq", "/d/S7/a_2.fastq"]⟩

/-- C7, evaluated at the failing input: the dataset row of the paired,
untrimmed sample S7 carries the trimmed cell "false", which loading
type-coerces to the boolean false (spec §6); the stage's paired branch
compares that boolean against the string "false", which can never be equal,
so the Filter run of this sample (which does execute: the gate is open and
mothur is invoked) writes no primers.oligos file at all. -/
theorem c7_untrimmed_flag_eval :
    pyEq (loadRow row7).trimmed (PyVal.str "false") = false ∧
    (mothur_configs [row7] "/d" w7).all (fun cfg =>
      (_mothur_filter_files oZero 1 cfg w7).2.any isProc &&
      (_mothur_filter_files oZero 1 cfg w7).2.all (fun e => !isOligosWrite e)) = true := by
  decide

lemma strHasPre_append (a b : String) : strHasPre a (a ++ b) = true := by
  simp [strHasPre, String.data_append]

lemma get_files_mem {w : World} {dir pat p : String}
    (hp : p ∈ w.fs) (hpre : strHasPre (dir ++ "/") p = true)
    (hglob : matchGlob pat (basenameStr p) = true) :
    p ∈ get_files w dir pat := by
  rw [get_files, List.mem_filter]
  exact ⟨hp, by rw [hpre, hglob]; rfl⟩

lemma get_files_glob {w : World} {dir pat p : String}
    (hp : p ∈ get_files w dir pat) : matchGlob pat (basenameStr p) = true := by
  rw [get_files, List.mem_filter] at hp
  have h2 := hp.2
  simp only [Bool.and_eq_true] at h2
  exact h2.2

lemma get_files_sub {w : World} {dir pat p : String}
    (hp : p ∈ get_files w dir pat) : p ∈ w.fs := by
  rw [get_files, List.mem_filter] at hp
  exact hp.1

lemma basenameStr_one (t a z : String)
    (h : a.data = '/' :: z.data)
    (hz : ∀ c ∈ z.data, (c != '/') = true) :
    basenameStr (t ++ a) = z := by
  apply String.ext
  simp only [basenameStr, String.data_append, h]
  exact basenameL_append_no_slash t.data z.data hz

lemma basenameStr_two (t a b z : String)
    (h : a.data ++ b.data = '/' :: z.data)
    (hz : ∀ c ∈ z.data, (c != '/') = true) :
    basenameStr (t ++ a ++ b) = z := by
  apply String.ext
  simp only [basenameStr, String.data_append, List.append_assoc, h]
  exact basenameL_append_no_slash t.data z.data hz

lemma target_in_get_files {w : World} (dataDir s x glob : String)
    (hm : ((dataDir ++ "/" ++ s) ++ "/filtered." ++ x) ∈ w.fs)
    (h : "/filtered.".data ++ x.data = '/' :: glob.data)
    (hz : ∀ c ∈ glob.data, (c != '/') = true)
    (hg : matchGlob glob glob = true) :
    ((dataDir ++ "/" ++ s) ++ "/filtered." ++ x) ∈ get_files w dataDir glob := by
  apply get_files_mem hm
  · rw [String.append_assoc (dataDir ++ "/" ++ s), String.append_assoc (dataDir ++ "/")]
    exact strHasPre_append _ _
  · rw [basenameStr_two _ _ _ _ h hz]
    exact hg

lemma moveAll_nil {dest : String} {fs : List String} :
    moveAll [] dest fs = fs := rfl

lemma moveAll_mem_self {srcs : List String} {dest : String} {fs : List String}
    (h : srcs ≠ []) : dest ∈ moveAll srcs dest fs := by
  rw [moveAll, if_neg (by simpa using h)]
  exact List.mem_append_right _ (List.mem_singleton.mpr rfl)

lemma moveAll_preserve {srcs : List String} {dest p : String} {fs : List String}
    (hp : p ∈ fs) (hns : p ∉ srcs) : p ∈ moveAll srcs dest fs := by
  rw [moveAll]
  split
  · exact hp
  · exact List.mem_append_left _ (List.mem_filter.mpr ⟨hp, by simpa using hns⟩)

lemma moveAll_not_mem {srcs : List String} {dest p : String} {fs : List String}
    (hp : p ∉ fs) (hd : p ≠ dest) : p ∉ moveAll srcs dest fs := by
  rw [moveAll]
  split
  · exact hp
  · intro hmem
    rcases List.mem_append.mp hmem with h | h
    · exact hp (List.mem_filter.mp h).1
    · exact hd (by simpa using h)

lemma matchGlob_merged_fasta (name : String) :
    matchGlob "merged.fasta" name = ("merged.fasta" == name) := rfl

lemma matchGlob_merged_group (name : String) :
    matchGlob "merged.group" name = ("merged.group" == name) := rfl

def mergeCmd : String := "mothur " ++ (mergeTmp ++ "/script")

/-- Skip branch of merge_fastq: with either input list empty, nothing but
the warning happens. -/
lemma merge_skip {o : Oracle} {dataDir : String} {w : World}
    (h : get_files w dataDir "filtered.fasta" = [] ∨
      get_files w dataDir "filtered.group" = []) :
    merge_fastq o dataDir w = (w, [Event.warn "No files found to merge."]) := by
  simp only [merge_fastq]
  rw [if_neg (by rcases h with h | h <;> simp [h])]

/-- Run branch of merge_fastq with a zero exit: the final filesystem is the
two discovery-driven moves over the post-run filesystem. -/
lemma merge_run_fs (o : Oracle) (dataDir : String) (w : World)
    (hf : get_files w dataDir "filtered.fasta" ≠ [])
    (hg : get_files w dataDir "filtered.group" ≠ [])
    (hz : (o mergeCmd).exit = 0) :
    (merge_fastq o dataDir w).1.fs =
      moveAll (get_files ⟨w.fs ++ (o mergeCmd).fsCreates⟩ dataDir "merged.group")
        (dataDir ++ "/merged.group")
        (moveAll (get_files ⟨w.fs ++ (o mergeCmd).fsCreates⟩ dataDir "merged.fasta")
          (dataDir ++ "/merged.fasta")
          (w.fs ++ (o mergeCmd).fsCreates)) := by
  simp only [merge_fastq, mergeCmd]
  rw [if_pos (by simp [hf, hg]), if_pos (by simp only [mergeCmd] at hz; simp [hz])]

/-- The merge collaborator invocation happens whenever both input lists are
non-empty. -/
lemma merge_run_proc (o : Oracle) (dataDir : String) (w : World)
    (hf : get_files w dataDir "filtered.fasta" ≠ [])
    (hg : get_files w dataDir "filtered.group" ≠ []) :
    Event.proc mergeCmd ∈ (merge_fastq o dataDir w).2 := by
  simp only [merge_fastq, mergeCmd]
  rw [if_pos (by simp [hf, hg])]
  split <;> simp

/-- A file whose basename matches neither requested merge name survives
merge_fastq. -/
lemma merge_preserves {o : Oracle} {dataDir p : String} {w : World}
    (hp : p ∈ w.fs)
    (h1 : ("merged.fasta" == basenameStr p) = false)
    (h2 : ("merged.group" == basenameStr p) = false) :
    p ∈ (merge_fastq o dataDir w).1.fs := by
  simp only [merge_fastq]
  split
  · split
    · refine moveAll_preserve (moveAll_preserve (List.mem_append_left _ hp) ?_) ?_
      · intro hmem
        have := get_files_glob hmem
        rw [matchGlob_merged_fasta, h1] at this
        cases this
      · intro hmem
        have := get_files_glob hmem
        rw [matchGlob_merged_group, h2] at this
        cases this
    · exact List.mem_append_left _ hp
  · exact hp

lemma install_silva_skip {o : Oracle} {w : World} (h : silvaDir ∈ w.fs) :
    install_silva o w = (w, [Event.warn "SILVA reference already installed."]) := by
  simp only [install_silva]
  rw [if_pos (by simpa using h)]

def preprocessCmd : String := "mothur " ++ (preprocessTmp ++ "/script")

/-- preprocess_fasta invokes the external tool unconditionally. -/
lemma preprocess_fasta_proc (o : Oracle) (dataDir : String) (w : World) :
    Event.proc preprocessCmd ∈ (preprocess_fasta o dataDir w).2 := by
  simp only [preprocess_fasta, preprocessCmd]
  split <;> simp

/-- C10: after a zero merge exit the post-run discovery looks only for the
exact requested names below the data directory: every discovered file is
named merged.fasta (resp. merged.group), a discovered match is moved onto
the requested path, and with no match the requested sequence path stays
absent, so any collaborator output under a different name is never found or
promoted. -/
theorem c10_merge_discovery (o : Oracle) (dataDir : String) (w : World)
    (hf : get_files w dataDir "filtered.fasta" ≠ [])
    (hg : get_files w dataDir "filtered.group" ≠ [])
    (hz : (o mergeCmd).exit = 0) :
    (∀ p ∈ get_files ⟨w.fs ++ (o mergeCmd).fsCreates⟩ dataDir "merged.fasta",
        basenameStr p = "merged.fasta") ∧
    (∀ p ∈ get_files ⟨w.fs ++ (o mergeCmd).fsCreates⟩ dataDir "merged.group",
        basenameStr p = "merged.group") ∧
    (get_files ⟨w.fs ++ (o mergeCmd).fsCreates⟩ dataDir "merged.fasta" ≠ [] →
      (dataDir ++ "/merged.fasta") ∈ (merge_fastq o dataDir w).1.fs) ∧
    (get_files ⟨w.fs ++ (o mergeCmd).fsCreates⟩ dataDir "merged.group" ≠ [] →
      (dataDir ++ "/merged.group") ∈ (merge_fastq o dataDir w).1.fs) ∧
    (get_files ⟨w.fs ++ (o mergeCmd).fsCreates⟩ dataDir "merged.fasta" = [] →
      (dataDir ++ "/merged.fasta") ∉ w.fs ++ (o mergeCmd).fsCreates →
      (dataDir ++ "/merged.fasta") ∉ (merge_fastq o dataDir w).1.fs) := by
  have hrun := merge_run_fs o dataDir w hf hg hz
  have hbf : basenameStr (dataDir ++ "/merged.fasta") = "merged.fasta" :=
    basenameStr_one dataDir "/merged.fasta" "merged.fasta" (by decide) (by decide)
  refine ⟨?_, ?_, ?_, ?_, ?_⟩
  · intro p hp
    have hb := get_files_glob hp
    rw [matchGlob_merged_fasta] at hb
    exact (eq_of_beq hb).symm
  · intro p hp
    have hb := get_files_glob hp
    rw [matchGlob_merged_group] at hb
    exact (eq_of_beq hb).symm
  · intro hne
    rw [hrun]
    apply moveAll_preserve (moveAll_mem_self hne)
    intro hmem
    have hb := get_files_glob hmem
    rw [matchGlob_merged_group, hbf] at hb
    exact absurd hb (by decide)
  · intro hne
    rw [hrun]
    exact moveAll_mem_self hne
  · intro hnil habs
    rw [hrun, hnil, moveAll_nil]
    apply moveAll_not_mem habs
    intro he
    have := str_append_left_cancel he
    exact absurd this (by decide)

def wC5 : World := ⟨["/d/S1/filtered.fasta", "/d/S1/filtered.group"]⟩

/-- A collaborator that exits zero but writes its outputs under names other
than the requested ones. -/
def oMis : Oracle := fun _ => ⟨0, [], ["/d/output.fasta", "/d/output.group"]⟩

/-- C5 counterexample: the merge inputs are non-empty, the collaborator
exits zero but names its outputs output.fasta and output.group; the external
tool was invoked, yet nothing ends up at the requested merged.fasta and
merged.group paths, refuting "regardless of what filenames the collaborator
internally chose". -/
theorem c5_counterexample :
    (merge_fastq oMis "/d" wC5).2.any isProc = true ∧
    ("/d/merged.fasta") ∉ (merge_fastq oMis "/d" wC5).1.fs ∧
    ("/d/merged.group") ∉ (merge_fastq oMis "/d" wC5).1.fs := by
  decide

/-- C5 as amended: Merge is skipped entirely when either input list is
empty; otherwise, after a zero exit, the merged files end up at the
requested paths provided the collaborator produced files with the requested
basenames below the data directory. -/
theorem c5_merge_amended (o : Oracle) (dataDir : String) (w : World) :
    ((get_files w dataDir "filtered.fasta" = [] ∨
        get_files w dataDir "filtered.group" = []) →
      merge_fastq o dataDir w = (w, [Event.warn "No files found to merge."])) ∧
    (get_files w dataDir "filtered.fasta" ≠ [] →
      get_files w dataDir "filtered.group" ≠ [] →
      (o mergeCmd).exit = 0 →
      (dataDir ++ "/merged.fasta") ∈
        get_files ⟨w.fs ++ (o mergeCmd).fsCreates⟩ dataDir "merged.fasta" →
      (dataDir ++ "/merged.group") ∈
        get_files ⟨w.fs ++ (o mergeCmd).fsCreates⟩ dataDir "merged.group" →
      (dataDir ++ "/merged.fasta") ∈ (merge_fastq o dataDir w).1.fs ∧
      (dataDir ++ "/merged.group") ∈ (merge_fastq o dataDir w).1.fs) := by
  constructor
  · exact merge_skip
  · intro hf hg hz hmf hmg
    have hrun := merge_run_fs o dataDir w hf hg hz
    have hbf : basenameStr (dataDir ++ "/merged.fasta") = "merged.fasta" :=
      basenameStr_one dataDir "/merged.fasta" "merged.fasta" (by decide) (by decide)
    constructor
    · rw [hrun]
      apply moveAll_preserve (moveAll_mem_self (List.ne_nil_of_mem hmf))
      intro hmem
      have hb := get_files_glob hmem
      rw [matchGlob_merged_group, hbf] at hb
      exact absurd hb (by decide)
    · rw [hrun]
      exact moveAll_mem_self (List.ne_nil_of_mem hmg)

/-- A collaborator that exits zero and writes exactly the requested
names. -/
def oGood : Oracle := fun _ => ⟨0, [], ["/d/merged.fasta", "/d/merged.group"]⟩

theorem c5_merge_amended_witness :
    ("/d/merged.fasta") ∈ (merge_fastq oGood "/d" wC5).1.fs ∧
    ("/d/merged.group") ∈ (merge_fastq oGood "/d" wC5).1.fs :=
  (c5_merge_amended oGood "/d" wC5).2 (by decide) (by decide) (by decide)
    (by decide) (by decide)

theorem c10_merge_discovery_witness :
    basenameStr "/d/merged.fasta" = "merged.fasta" ∧
    ("/d/merged.fasta") ∈ (merge_fastq oGood "/d" wC5).1.fs := by
  have h := c10_merge_discovery oGood "/d" wC5 (by decide) (by decide) (by decide)
  exact ⟨h.1 "/d/merged.fasta" (by decide), h.2.2.1 (by decide)⟩

lemma runSeq_filter_all_skip (o : Oracle) (jobs : Nat) :
    ∀ (cfgs : List MothurConfig) (w : World),
      (∀ cfg ∈ cfgs,
        (filterTargets cfg.target_dir).all (fun t => w.fs.contains t) = true) →
      (runSeq (_mothur_filter_files o jobs) cfgs w).1 = w ∧
      ∀ e ∈ (runSeq (_mothur_filter_files o jobs) cfgs w).2, isWarn e = true := by
  intro cfgs
  induction cfgs with
  | nil => intro w h; exact ⟨rfl, by simp [runSeq]⟩
  | cons cfg cfgs ih =>
      intro w h
      have hskip := mothur_filter_skip o jobs cfg w (h cfg (List.mem_cons_self _ _))
      have ihw := ih w (fun c hc => h c (List.mem_cons_of_mem _ hc))
      constructor
      · simp only [runSeq, hskip]
        exact ihw.1
      · simp only [runSeq, hskip]
        intro e he
        rcases List.mem_append.mp he with he | he
        · rw [List.mem_singleton] at he
          subst he
          rfl
        · exact ihw.2 e he

lemma mothur_configs_length (rows : List CsvRow) (dataDir : String) (w : World) :
    (mothur_configs rows dataDir w).length = rows.length := by
  simp [mothur_configs]

lemma mothur_configs_target (rows : List CsvRow) (dataDir : String) (w : World) :
    ∀ cfg ∈ mothur_configs rows dataDir w,
      cfg.target_dir = dataDir ++ "/" ++ cfg.sra_id := by
  intro cfg hc
  simp only [mothur_configs, List.mem_map] at hc
  obtain ⟨d, _, rfl⟩ := hc
  rfl

/-- C2 as amended: re-running the driver with every stage's outputs present
skips the per-sample Filter stage (unchanged filesystem, warnings only) and
the Reference-Install stage (warning only), but the batch-level Merge stage
still invokes the external tool (its filtered inputs still exist) and the
batch-level Preprocess stage invokes it unconditionally; the driver trace is
exactly the concatenation of the four stage traces. -/
theorem c2_rerun_not_fully_idempotent (rows : List CsvRow) (dataDir : String)
    (jobs chunkSize : Nat) (o : Oracle) (w : World)
    (H1 : ∀ cfg ∈ mothur_configs rows dataDir w,
      (filterTargets cfg.target_dir).all (fun t => w.fs.contains t) = true)
    (H2 : silvaDir ∈ w.fs)
    (H3 : rows ≠ []) :
    (filter_fastq rows dataDir jobs chunkSize o w).1 = w ∧
    (∀ e ∈ (filter_fastq rows dataDir jobs chunkSize o w).2, isWarn e = true) ∧
    Event.proc mergeCmd ∈ (merge_fastq o dataDir w).2 ∧
    (∀ e ∈ (install_silva o (merge_fastq o dataDir w).1).2, isWarn e = true) ∧
    Event.proc preprocessCmd ∈
      (preprocess_fasta o dataDir
        (install_silva o (merge_fastq o dataDir w).1).1).2 ∧
    (preprocess_data rows dataDir jobs chunkSize o w).2 =
      (filter_fastq rows dataDir jobs chunkSize o w).2 ++
        (merge_fastq o dataDir w).2 ++
        (install_silva o (merge_fastq o dataDir w).1).2 ++
        (preprocess_fasta o dataDir
          (install_silva o (merge_fastq o dataDir w).1).1).2 := by
  have hfskip := runSeq_filter_all_skip o jobs (mothur_configs rows dataDir w) w H1
  have hfil1 : (filter_fastq rows dataDir jobs chunkSize o w).1 = w := by
    rw [filter_fastq_runSeq]; exact hfskip.1
  have hcne : mothur_configs rows dataDir w ≠ [] := by
    intro hnil
    apply H3
    have hlen := mothur_configs_length rows dataDir w
    rw [hnil] at hlen
    exact List.length_eq_zero.mp hlen.symm
  obtain ⟨cfg0, hcfg0⟩ := List.exists_mem_of_ne_nil _ hcne
  have htd := mothur_configs_target rows dataDir w cfg0 hcfg0
  have hall := H1 cfg0 hcfg0
  have hmem_fa : ((dataDir ++ "/" ++ cfg0.sra_id) ++ "/filtered." ++ "fasta") ∈ w.fs := by
    have hx := List.all_eq_true.mp hall (cfg0.target_dir ++ "/filtered." ++ "fasta")
      (by simp [filterTargets])
    rw [htd] at hx
    simpa using hx
  have hmem_gr : ((dataDir ++ "/" ++ cfg0.sra_id) ++ "/filtered." ++ "group") ∈ w.fs := by
    have hx := List.all_eq_true.mp hall (cfg0.target_dir ++ "/filtered." ++ "group")
      (by simp [filterTargets])
    rw [htd] at hx
    simpa using hx
  have hf : get_files w dataDir "filtered.fasta" ≠ [] :=
    List.ne_nil_of_mem (target_in_get_files dataDir cfg0.sra_id "fasta"
      "filtered.fasta" hmem_fa (by decide) (by decide) (by decide))
  have hg : get_files w dataDir "filtered.group" ≠ [] :=
    List.ne_nil_of_mem (target_in_get_files dataDir cfg0.sra_id "group"
      "filtered.group" hmem_gr (by decide) (by decide) (by decide))
  have hsilva2 : silvaDir ∈ (merge_fastq o dataDir w).1.fs :=
    merge_preserves H2 (by decide) (by decide)
  refine ⟨hfil1, ?_, ?_, ?_, ?_, ?_⟩
  · rw [filter_fastq_runSeq]; exact hfskip.2
  · exact merge_run_proc o dataDir w hf hg
  · rw [install_silva_skip hsilva2]
    intro e he
    rw [List.mem_singleton] at he
    subst he
    rfl
  · exact preprocess_fasta_proc o dataDir _
  · simp only [preprocess_data]
    rw [hfil1]

def wC2 : World := ⟨["/d/S1/a.fastq", "/d/S1/filtered.fasta", "/d/S1/filtered.group",
  "/d/S1/filtered.summary", "/d/merged.fasta", "/d/merged.group", silvaDir]⟩

/-- C2 counterexample: with one sample whose Filter targets, the merged
files and the reference directory all present, re-running the driver still
performs an external process call, refuting "performs no further external
process call in any stage". -/
theorem c2_counterexample :
    (preprocess_data [rowS1] "/d" 1 2 oZero wC2).2.any isProc = true := by
  decide

theorem c2_rerun_witness :
    Event.proc mergeCmd ∈ (merge_fastq oZero "/d" wC2).2 :=
  (c2_rerun_not_fully_idempotent [rowS1] "/d" 1 2 oZero wC2
    (by decide) (by decide) (by decide)).2.2.1

/-- C3: the batch dispatch never aborts: for any oracle behaviour, including
arbitrary external process failures, each batch trace is the concatenation
of exactly one non-empty per-item segment per sample, for both the Fetch
batch (get_data) and the Filter batch (filter_fastq); every per-item failure
is absorbed inside the per-item function, which always returns. -/
theorem c3_batch_never_aborts (rows : List CsvRow) (dataDir : String)
    (jobs chunkSize : Nat) (o : Oracle) (w : World) :
    ((get_data rows dataDir jobs o w).2 =
        (runSegs (fun r => get_fastq (loadRow r) dataDir jobs o) rows w).join ∧
      (runSegs (fun r => get_fastq (loadRow r) dataDir jobs o) rows w).length =
        rows.length ∧
      (∀ seg ∈ runSegs (fun r => get_fastq (loadRow r) dataDir jobs o) rows w,
        seg ≠ [])) ∧
    ((filter_fastq rows dataDir jobs chunkSize o w).2 =
        (runSegs (_mothur_filter_files o jobs)
          (mothur_configs rows dataDir w) w).join ∧
      (runSegs (_mothur_filter_files o jobs)
          (mothur_configs rows dataDir w) w).length = rows.length ∧
      (∀ seg ∈ runSegs (_mothur_filter_files o jobs)
          (mothur_configs rows dataDir w) w, seg ≠ [])) := by
  refine ⟨⟨?_, ?_, ?_⟩, ⟨?_, ?_, ?_⟩⟩
  · exact runSeq_eq_segs _ rows w
  · exact runSegs_length _ rows w
  · exact runSegs_ne_nil _
      (fun it w' => get_fastq_events_ne_nil (loadRow it) dataDir jobs o w') rows w
  · rw [filter_fastq_runSeq]
    exact runSeq_eq_segs _ _ w
  · rw [runSegs_length]
    exact mothur_configs_length rows dataDir w
  · exact runSegs_ne_nil _
      (fun it w' => mothur_filter_events_ne_nil o jobs it w') _ w

theorem c3_batch_never_aborts_witness :
    (runSegs (fun r => get_fastq (loadRow r) "/d" 1 oFail) [rowS1, row7] ⟨[]⟩).length = 2 ∧
    (get_fastq (loadRow rowS1) "/d" 1 oFail ⟨[]⟩).2 ≠ [] := by
  have h := c3_batch_never_aborts [rowS1, row7] "/d" 1 2 oFail ⟨[]⟩
  refine ⟨h.1.2.1, h.1.2.2 _ ?_⟩
  exact List.mem_cons_self _ _
